import Mathlib

/-!
Verification model of the HivemojiGO ingestion and assembly pipeline.

The definitions below are shallow embeddings of the Go source:
  * `internal/storage/storage.go`  — the `Store` operations over an explicit
    database state (`DB`), with timestamps omitted;
  * `internal/storage/mime.go`     — `NormalizeEmojiMime` (the stdlib call
    `mime.ParseMediaType` is modelled for the media-type result, parameters
    are not validated);
  * `internal/processor/processor.go` — block/op processing over a small
    JSON value type; Go's `encoding/json` struct decoding is modelled field
    by field (absent or `null` fields yield Go zero values, mismatched
    types yield errors, later duplicate keys win);
  * `internal/hive/types.go`       — `CustomJSONOp` and `ExtractPayload`;
  * `cmd/server/main.go`           — the resume computation of `ingestLoop`.

Bytes are `List Nat`, machine integers are `Int` (no arithmetic in the
pipeline can overflow a 64-bit int for the inputs the claims concern), and
SHA-256 is implemented concretely over `Nat` words reduced mod 2^32.
-/

/-! ### ASCII string helpers (models of `strings.TrimSpace`, `strings.ToLower`,
`strings.EqualFold` restricted to ASCII, which covers hex digests and media
types) -/

def isSpaceChar (c : Char) : Bool :=
  c = ' ' || c = '\t' || c = '\n' || c = '\r'

def trimStr (s : String) : String :=
  String.mk ((s.data.dropWhile isSpaceChar).reverse.dropWhile isSpaceChar |>.reverse)

def lowerCharN (n : Nat) : Nat :=
  if 65 ≤ n ∧ n ≤ 90 then n + 32 else n

def lowerStr (s : String) : String :=
  String.mk (s.data.map (fun c => Char.ofNat (lowerCharN c.toNat)))

/-- Model of `strings.EqualFold` on ASCII data. -/
def eqFold (s t : String) : Bool :=
  s.data.map (fun c => lowerCharN c.toNat) = t.data.map (fun c => lowerCharN c.toNat)

/-! ### SHA-256 (model of `crypto/sha256.Sum256` plus `hex.EncodeToString`) -/

def w32 (n : Nat) : Nat := n % 4294967296

def rotr32 (x n : Nat) : Nat := w32 ((x >>> n) ||| (x <<< (32 - n)))

def shaCh (x y z : Nat) : Nat := (x &&& y) ^^^ ((4294967295 - w32 x) &&& z)

def shaMaj (x y z : Nat) : Nat := (x &&& y) ^^^ (x &&& z) ^^^ (y &&& z)

def bsig0 (x : Nat) : Nat := rotr32 x 2 ^^^ rotr32 x 13 ^^^ rotr32 x 22

def bsig1 (x : Nat) : Nat := rotr32 x 6 ^^^ rotr32 x 11 ^^^ rotr32 x 25

def ssig0 (x : Nat) : Nat := rotr32 x 7 ^^^ rotr32 x 18 ^^^ (x >>> 3)

def ssig1 (x : Nat) : Nat := rotr32 x 17 ^^^ rotr32 x 19 ^^^ (x >>> 10)

def shaK : List Nat :=
  [1116352408, 1899447441, 3049323471, 3921009573, 961987163, 1508970993,
   2453635748, 2870763221, 3624381080, 310598401, 607225278, 1426881987,
   1925078388, 2162078206, 2614888103, 3248222580, 3835390401, 4022224774,
   264347078, 604807628, 770255983, 1249150122, 1555081692, 1996064986,
   2554220882, 2821834349, 2952996808, 3210313671, 3336571891, 3584528711,
   113926993, 338241895, 666307205, 773529912, 1294757372, 1396182291,
   1695183700, 1986661051, 2177026350, 2456956037, 2730485921, 2820302411,
   3259730800, 3345764771, 3516065817, 3600352804, 4094571909, 275423344,
   430227734, 506948616, 659060556, 883997877, 958139571, 1322822218,
   1537002063, 1747873779, 1955562222, 2024104815, 2227730452, 2361852424,
   2428436474, 2756734187, 3204031479, 3329325298]

def shaH0 : List Nat :=
  [1779033703, 3144134277, 1013904242, 2773480762,
   1359893119, 2600822924, 528734635, 1541459225]

def be64 (n : Nat) : List Nat :=
  (List.range 8).map (fun i => n >>> (8 * (7 - i)) % 256)

def padMsg (m : List Nat) : List Nat :=
  m ++ [0x80] ++ List.replicate ((119 - m.length % 64) % 64) 0 ++ be64 (m.length * 8)

def toBlocks64Fuel : Nat → List Nat → List (List Nat)
  | 0, _ => []
  | _ + 1, [] => []
  | fuel + 1, l => l.take 64 :: toBlocks64Fuel fuel (l.drop 64)

def toBlocks64 (l : List Nat) : List (List Nat) :=
  toBlocks64Fuel l.length l

def beWord : List Nat → Nat
  | [a, b, c, d] => ((a * 256 + b) * 256 + c) * 256 + d
  | _ => 0

def blockWords (blk : List Nat) : List Nat :=
  (List.range 16).map (fun i => beWord ((blk.drop (4 * i)).take 4))

/-- One message-schedule step; `rw` is the reversed schedule built so far. -/
def stepW (rw : List Nat) : Nat :=
  w32 (ssig1 (rw.getD 1 0) + rw.getD 6 0 + ssig0 (rw.getD 14 0) + rw.getD 15 0)

def extendW : Nat → List Nat → List Nat
  | 0, rw => rw
  | n + 1, rw => extendW n (stepW rw :: rw)

def compressStep (st : List Nat) (kw : Nat × Nat) : List Nat :=
  match st with
  | [a, b, c, d, e, f, g, h] =>
    let t1 := w32 (h + bsig1 e + shaCh e f g + kw.1 + kw.2)
    let t2 := w32 (bsig0 a + shaMaj a b c)
    [w32 (t1 + t2), a, b, c, w32 (d + t1), e, f, g]
  | other => other

def compressBlock (hs : List Nat) (blk : List Nat) : List Nat :=
  let sched := (extendW 48 (blockWords blk).reverse).reverse
  let st := (shaK.zip sched).foldl compressStep hs
  (hs.zip st).map (fun p => w32 (p.1 + p.2))

def sha256Bytes (m : List Nat) : List Nat :=
  let hs := (toBlocks64 (padMsg m)).foldl compressBlock shaH0
  (hs.map (fun w => [w >>> 24 % 256, w >>> 16 % 256, w >>> 8 % 256, w % 256])).foldr (· ++ ·) []

def hexDigit (n : Nat) : Char :=
  if n < 10 then Char.ofNat (48 + n) else Char.ofNat (87 + n)

def sha256Hex (m : List Nat) : String :=
  String.mk (((sha256Bytes m).map (fun b => [hexDigit (b / 16), hexDigit (b % 16)])).foldr (· ++ ·) [])

/-! ### Base64 (model of `encoding/base64.StdEncoding.DecodeString` on inputs
without embedded newlines) -/

def b64Val (c : Char) : Option Nat :=
  let n := c.toNat
  if 65 ≤ n ∧ n ≤ 90 then some (n - 65)
  else if 97 ≤ n ∧ n ≤ 122 then some (n - 71)
  else if 48 ≤ n ∧ n ≤ 57 then some (n + 4)
  else if c = '+' then some 62
  else if c = '/' then some 63
  else none

def b64Groups : List Char → Except String (List Nat)
  | [] => .ok []
  | c1 :: c2 :: c3 :: c4 :: rest =>
    match b64Val c1, b64Val c2 with
    | some v1, some v2 =>
      if c3 = '=' ∧ c4 = '=' ∧ rest = [] then
        .ok [v1 * 4 + v2 / 16]
      else if c4 = '=' ∧ rest = [] then
        match b64Val c3 with
        | some v3 => .ok [v1 * 4 + v2 / 16, v2 % 16 * 16 + v3 / 4]
        | none => .error "illegal base64 data"
      else
        match b64Val c3, b64Val c4 with
        | some v3, some v4 =>
          match b64Groups rest with
          | .ok tail => .ok ((v1 * 4 + v2 / 16) :: (v2 % 16 * 16 + v3 / 4) :: (v3 % 4 * 64 + v4) :: tail)
          | .error e => .error e
        | _, _ => .error "illegal base64 data"
    | _, _ => .error "illegal base64 data"
  | _ => .error "illegal base64 data"

def b64Decode (s : String) : Except String (List Nat) :=
  b64Groups s.data

/-! ### JSON values and a parser (model of `encoding/json` document syntax;
numbers are kept as integers, with `frac` standing for any number carrying a
fractional or exponent part — such a number never decodes into a Go `int`;
`\u` escapes are not modelled) -/

inductive Json where
  | null
  | bool (b : Bool)
  | int (n : Int)
  | frac
  | str (s : String)
  | arr (elems : List Json)
  | obj (fields : List (String × Json))
deriving Inhabited

def skipWs : List Char → List Char
  | [] => []
  | c :: cs => if isSpaceChar c then skipWs cs else c :: cs

def parseStringChars : Nat → List Char → Option (List Char × List Char)
  | 0, _ => none
  | _ + 1, [] => none
  | fuel + 1, c :: cs =>
    if c = '"' then some ([], cs)
    else if c = '\\' then
      match cs with
      | [] => none
      | e :: cs' =>
        let esc : Option Char :=
          if e = '"' then some '"'
          else if e = '\\' then some '\\'
          else if e = '/' then some '/'
          else if e = 'n' then some '\n'
          else if e = 't' then some '\t'
          else if e = 'r' then some '\r'
          else if e = 'b' then some (Char.ofNat 8)
          else if e = 'f' then some (Char.ofNat 12)
          else none
        match esc with
        | some ch => (parseStringChars fuel cs').map (fun p => (ch :: p.1, p.2))
        | none => none
    else (parseStringChars fuel cs).map (fun p => (c :: p.1, p.2))

def digitsVal (ds : List Char) : Nat :=
  ds.foldl (fun acc c => acc * 10 + (c.toNat - 48)) 0

def parseNumberTail (neg : Bool) (cs : List Char) : Option (Json × List Char) :=
  let intDigits := cs.takeWhile Char.isDigit
  let rest := cs.dropWhile Char.isDigit
  if intDigits = [] then none
  else if intDigits.length > 1 ∧ intDigits.headD '0' = '0' then none
  else
    match rest with
    | c :: _ =>
      if c = '.' ∨ c = 'e' ∨ c = 'E' then
        -- fractional or exponent part: consume digits, dots, signs, e markers
        let tail := rest.dropWhile (fun d =>
          d.isDigit ∨ d = '.' ∨ d = 'e' ∨ d = 'E' ∨ d = '+' ∨ d = '-')
        some (Json.frac, tail)
      else some (Json.int (if neg then -(digitsVal intDigits : Int) else digitsVal intDigits), rest)
    | [] => some (Json.int (if neg then -(digitsVal intDigits : Int) else digitsVal intDigits), rest)

def expectLit : List Char → List Char → Option (List Char)
  | [], cs => some cs
  | l :: ls, c :: cs => if c = l then expectLit ls cs else none
  | _ :: _, [] => none

mutual

def parseValue : Nat → List Char → Option (Json × List Char)
  | 0, _ => none
  | fuel + 1, cs =>
    match skipWs cs with
    | [] => none
    | c :: rest =>
      if c = 'n' then (expectLit ['u', 'l', 'l'] rest).map (fun r => (Json.null, r))
      else if c = 't' then (expectLit ['r', 'u', 'e'] rest).map (fun r => (Json.bool true, r))
      else if c = 'f' then (expectLit ['a', 'l', 's', 'e'] rest).map (fun r => (Json.bool false, r))
      else if c = '"' then (parseStringChars (fuel + 1) rest).map (fun p => (Json.str (String.mk p.1), p.2))
      else if c = '-' then parseNumberTail true rest
      else if c.isDigit then parseNumberTail false (c :: rest)
      else if c = '[' then
        match skipWs rest with
        | ']' :: r => some (Json.arr [], r)
        | r => (parseElems fuel r).map (fun p => (Json.arr p.1, p.2))
      else if c = Char.ofNat 123 then
        match skipWs rest with
        | r =>
          if r.headD ' ' = Char.ofNat 125 then some (Json.obj [], r.tail)
          else (parseMembers fuel r).map (fun p => (Json.obj p.1, p.2))
      else none

def parseElems : Nat → List Char → Option (List Json × List Char)
  | 0, _ => none
  | fuel + 1, cs =>
    match parseValue fuel cs with
    | none => none
    | some (v, rest) =>
      match skipWs rest with
      | ',' :: r => (parseElems fuel r).map (fun p => (v :: p.1, p.2))
      | ']' :: r => some ([v], r)
      | _ => none

def parseMembers : Nat → List Char → Option (List (String × Json) × List Char)
  | 0, _ => none
  | fuel + 1, cs =>
    match skipWs cs with
    | '"' :: r =>
      match parseStringChars (fuel + 1) r with
      | none => none
      | some (key, r1) =>
        match skipWs r1 with
        | ':' :: r2 =>
          match parseValue fuel r2 with
          | none => none
          | some (v, r3) =>
            match skipWs r3 with
            | ',' :: r4 => (parseMembers fuel r4).map (fun p => ((String.mk key, v) :: p.1, p.2))
            | r4 =>
              if r4.headD ' ' = Char.ofNat 125 then some ([(String.mk key, v)], r4.tail)
              else none
        | _ => none
    | _ => none

end

def parseJson (s : String) : Option Json :=
  match parseValue (s.length + 1) s.data with
  | some (j, rest) => if skipWs rest = [] then some j else none
  | none => none

/-! ### MIME normalization (model of `internal/storage/mime.go`; the stdlib
`mime.ParseMediaType` is modelled for its media-type result: the part before
the first parameter separator, trimmed, lowercased, validated as
`token` or `token/token`; parameter syntax is not validated) -/

def allowedEmojiMimes : List String := ["image/gif", "image/png", "image/webp"]

def isTokenChar (c : Char) : Bool :=
  let n := c.toNat
  33 ≤ n ∧ n ≤ 126 ∧
    ¬ (c ∈ ['(', ')', '<', '>', '@', ',', ';', ':', '\\', '"', '/', '[', ']', '?', '='])

def mediaTypeOk (s : String) : Bool :=
  match s.splitOn "/" with
  | [t] => t ≠ "" && t.data.all isTokenChar
  | [t, sub] => t ≠ "" && t.data.all isTokenChar && sub ≠ "" && sub.data.all isTokenChar
  | _ => false

def parseMediaType (v : String) : Option String :=
  let base := lowerStr (trimStr ((v.splitOn ";").headD v))
  if mediaTypeOk base then some base else none

def NormalizeEmojiMime (raw : String) : Option String :=
  let raw := trimStr raw
  if raw = "" then none
  else
    match parseMediaType raw with
    | none => none
    | some mediaType =>
      let mediaType := lowerStr mediaType
      if allowedEmojiMimes.contains mediaType then some mediaType else none

/-! ### Association lists (the relational store: each table is a list of
key/row pairs with unique keys; SQL upsert, conditional insert and delete
become list operations) -/

def alookup {α β : Type} [DecidableEq α] : List (α × β) → α → Option β
  | [], _ => none
  | (k', v) :: rest, k => if k = k' then some v else alookup rest k

def aset {α β : Type} [DecidableEq α] : List (α × β) → α → β → List (α × β)
  | [], k, v => [(k, v)]
  | (k', v') :: rest, k, v => if k = k' then (k, v) :: rest else (k', v') :: aset rest k v

def aremove {α β : Type} [DecidableEq α] : List (α × β) → α → List (α × β)
  | [], _ => []
  | (k', v') :: rest, k => if k = k' then aremove rest k else (k', v') :: aremove rest k

/-! ### Storage data model (from `internal/storage/storage.go`; timestamp
columns are not modelled) -/

/-- Decoded protocol v1 register payload (`storage.RegisterV1`). -/
structure RegisterV1 where
  name : String
  author : String
  mime : String
  width : Int
  height : Int
  data : List Nat
  animated : Bool
  loop : Option Int
  fallbackMime : String
  fallbackData : List Nat
deriving DecidableEq, Inhabited

/-- Decoded v2 chunk message (`storage.ChunkPayload`). -/
structure ChunkPayload where
  id : String
  author : String
  name : String
  version : Int
  mime : String
  width : Int
  height : Int
  animated : Bool
  loop : Option Int
  checksum : String
  kind : String
  seq : Int
  total : Int
  data : List Nat
deriving DecidableEq, Inhabited

/-- A completed set of chunks (`storage.AssembledSet`). -/
structure AssembledSet where
  uploadID : String
  kind : String
  name : String
  author : String
  version : Int
  mime : String
  width : Int
  height : Int
  animated : Bool
  loop : Option Int
  checksum : String
  data : List Nat
deriving DecidableEq, Inhabited

/-- Key of `hivemoji_chunks` (PRIMARY KEY (upload_id, kind, seq)). -/
structure ChunkKey where
  uploadID : String
  kind : String
  seq : Int
deriving DecidableEq, Inhabited

/-- Non-key columns of a `hivemoji_chunks` row. -/
structure ChunkRow where
  total : Int
  data : List Nat
deriving DecidableEq, Inhabited

/-- Key of `hivemoji_chunk_sets` (PRIMARY KEY (upload_id, kind)). -/
structure SetKey where
  uploadID : String
  kind : String
deriving DecidableEq, Inhabited

/-- Non-key columns of a `hivemoji_chunk_sets` row. -/
structure SetRow where
  name : String
  author : String
  version : Int
  mime : String
  width : Int
  height : Int
  animated : Bool
  loop : Option Int
  checksum : String
  total : Int
  completed : Bool
  data : Option (List Nat)
deriving DecidableEq, Inhabited

/-- Key of `hivemoji_assets` (PRIMARY KEY (author, name)). -/
structure AssetKey where
  author : String
  name : String
deriving DecidableEq, Inhabited

/-- Non-key columns of a `hivemoji_assets` row. -/
structure AssetRow where
  version : Int
  uploadID : Option String
  mime : String
  width : Int
  height : Int
  data : List Nat
  animated : Bool
  loop : Option Int
  fallbackMime : Option String
  fallbackData : Option (List Nat)
  checksum : Option String
deriving DecidableEq, Inhabited

/-- The database state the `Store` operates on. -/
structure DB where
  assets : List (AssetKey × AssetRow)
  chunks : List (ChunkKey × ChunkRow)
  chunkSets : List (SetKey × SetRow)
  lastBlock : Option String
deriving DecidableEq, Inhabited

def dbEmpty : DB := { assets := [], chunks := [], chunkSets := [], lastBlock := none }

inductive Err where
  | envelope
  | unsupportedVersion
  | decodeV1
  | loopErr
  | b64
  | unknownOpV1
  | deleteNoAuthor
  | decodeV2
  | unsupportedOpV2
  | totalNonPos
  | noChunks
  | setRowMissing
  | countMismatch
  | checksumMismatch
  | unknownKind
  | dbErr
deriving DecidableEq, Inhabited

/-! ### Store operations -/

/-- Model of `nullIfEmpty`: blank strings become SQL NULL; the original
(untrimmed) value is kept otherwise. -/
def nullIfEmpty (value : String) : Option String :=
  if trimStr value = "" then none else some value

/-- Model of `nullBytes`: empty byte slices become SQL NULL. -/
def nullBytes (b : List Nat) : Option (List Nat) :=
  if b.length = 0 then none else some b

/-- The `hivemoji_assets` row written by `Store.UpsertV1`. The INSERT sets
`checksum` to NULL, but the ON CONFLICT DO UPDATE column list omits
`checksum`, so on the conflict path the previous row's checksum is kept. -/
def v1Row (p : RegisterV1) (priorChecksum : Option String) : AssetRow :=
  { version := 1, uploadID := none, mime := p.mime, width := p.width, height := p.height,
    data := p.data, animated := p.animated, loop := p.loop,
    fallbackMime := nullIfEmpty p.fallbackMime, fallbackData := nullBytes p.fallbackData,
    checksum := priorChecksum }

/-- Model of `Store.UpsertV1`: insert-or-replace by (author, name). -/
def upsertV1 (db : DB) (p : RegisterV1) : DB :=
  match alookup db.assets ⟨p.author, p.name⟩ with
  | none => { db with assets := aset db.assets ⟨p.author, p.name⟩ (v1Row p none) }
  | some old => { db with assets := aset db.assets ⟨p.author, p.name⟩ (v1Row p old.checksum) }

/-- Model of `Store.DeleteEmoji`. -/
def deleteEmoji (db : DB) (author name : String) : Except Err DB :=
  if trimStr author = "" then .error .deleteNoAuthor
  else .ok { db with assets := aremove db.assets ⟨author, name⟩ }

/-- The fresh chunk-set row the INSERT writes (completed=false, no data). -/
def freshSetRow (c : ChunkPayload) : SetRow :=
  { name := c.name, author := c.author, version := c.version, mime := c.mime,
    width := c.width, height := c.height, animated := c.animated, loop := c.loop,
    checksum := c.checksum, total := c.total, completed := false, data := none }

/-- The conflict-path update: ancillary columns overwritten, `completed` and
`data` preserved. -/
def updatedSetRow (old : SetRow) (c : ChunkPayload) : SetRow :=
  { old with
    name := c.name, author := c.author, version := c.version, mime := c.mime,
    width := c.width, height := c.height, animated := c.animated, loop := c.loop,
    checksum := c.checksum, total := c.total }

/-- Step 1 of `Store.SaveChunk`: upsert chunk-set metadata. The ON CONFLICT
update overwrites the ancillary columns (including `checksum` and `total`)
and preserves `completed` and `data`. -/
def upsertChunkSetMeta (db : DB) (c : ChunkPayload) : DB :=
  match alookup db.chunkSets ⟨c.id, c.kind⟩ with
  | none => { db with chunkSets := aset db.chunkSets ⟨c.id, c.kind⟩ (freshSetRow c) }
  | some old => { db with chunkSets := aset db.chunkSets ⟨c.id, c.kind⟩ (updatedSetRow old c) }

/-- Step 2 of `Store.SaveChunk`: insert the chunk, ON CONFLICT DO NOTHING. -/
def insertChunkIfAbsent (db : DB) (c : ChunkPayload) : DB :=
  match alookup db.chunks ⟨c.id, c.kind, c.seq⟩ with
  | some _ => db
  | none =>
    { db with chunks := aset db.chunks ⟨c.id, c.kind, c.seq⟩ { total := c.total, data := c.data } }

/-- The rows of `hivemoji_chunks` for one (upload_id, kind). -/
def chunksFor (db : DB) (uploadID kind : String) : List (ChunkKey × ChunkRow) :=
  db.chunks.filter (fun p => decide (p.1.uploadID = uploadID ∧ p.1.kind = kind))

/-- `ORDER BY seq`: insertion sort on the chunk sequence number. -/
def insertBySeq (p : ChunkKey × ChunkRow) : List (ChunkKey × ChunkRow) → List (ChunkKey × ChunkRow)
  | [] => [p]
  | q :: rest => if p.1.seq ≤ q.1.seq then p :: q :: rest else q :: insertBySeq p rest

def sortBySeq : List (ChunkKey × ChunkRow) → List (ChunkKey × ChunkRow)
  | [] => []
  | p :: rest => insertBySeq p (sortBySeq rest)

/-- The `AssembledSet` scanned out of a `hivemoji_chunk_sets` row together
with the concatenated buffer. -/
def assembledOf (uploadID kind : String) (row : SetRow) (buf : List Nat) : AssembledSet :=
  { uploadID := uploadID, kind := kind, name := row.name, author := row.author,
    version := row.version, mime := row.mime, width := row.width, height := row.height,
    animated := row.animated, loop := row.loop, checksum := row.checksum, data := buf }

/-- The seq-ordered chunk payloads the assembly query reads. -/
def assemblyParts (db : DB) (uploadID kind : String) : List (List Nat) :=
  (sortBySeq (chunksFor db uploadID kind)).map (fun p => p.2.data)

/-- The buffer `assembleChunks` concatenates in seq order. -/
def assemblyBuffer (db : DB) (uploadID kind : String) : List Nat :=
  (assemblyParts db uploadID kind).foldl (· ++ ·) []

/-- The chunk-set row after assembly: buffer stored, `completed` set. -/
def completedSetRow (row : SetRow) (buf : List Nat) : SetRow :=
  { row with completed := true, data := some buf }

/-- The chunk-set table update that marks a set completed. -/
def markCompleted (db : DB) (uploadID kind : String) (row : SetRow) (buf : List Nat) : DB :=
  { db with chunkSets := aset db.chunkSets ⟨uploadID, kind⟩ (completedSetRow row buf) }

/-- Model of `Store.assembleChunks`: concatenate the ordered chunks, verify
the count against the set row's `total` and (when non-empty) the declared
checksum against the SHA-256 hex digest, then mark the set completed. -/
def assembleChunks (db : DB) (uploadID kind : String) : Except Err (DB × AssembledSet) :=
  if (assemblyParts db uploadID kind).isEmpty then .error .noChunks
  else
    match alookup db.chunkSets ⟨uploadID, kind⟩ with
    | none => .error .setRowMissing
    | some row =>
      if ((assemblyParts db uploadID kind).length : Int) ≠ row.total then .error .countMismatch
      else if row.checksum ≠ "" ∧ eqFold row.checksum (sha256Hex (assemblyBuffer db uploadID kind)) = false then
        .error .checksumMismatch
      else
        .ok (markCompleted db uploadID kind row (assemblyBuffer db uploadID kind),
             assembledOf uploadID kind row (assemblyBuffer db uploadID kind))

/-- The transaction state of `SaveChunk` after the metadata upsert and the
chunk insert, just before the completion test. -/
def pendingChunksDB (db : DB) (c : ChunkPayload) : DB :=
  insertChunkIfAbsent (upsertChunkSetMeta db c) c

/-- Model of `Store.SaveChunk`: one transaction covering the metadata upsert,
the chunk insert, the completion test and the assembly. An error from any
step rolls the transaction back, so the caller's state is unchanged. -/
def saveChunk (db : DB) (c : ChunkPayload) : Except Err (DB × Option AssembledSet) :=
  if ((chunksFor (pendingChunksDB db c) c.id c.kind).length : Int) < c.total then
    .ok (pendingChunksDB db c, none)
  else
    match assembleChunks (pendingChunksDB db c) c.id c.kind with
    | .error e => .error e
    | .ok (db3, set) => .ok (db3, some set)

/-- Model of `Store.GetChunkSet`: the completed set, or none. -/
def getChunkSet (db : DB) (uploadID kind : String) : Option AssembledSet :=
  match alookup db.chunkSets ⟨uploadID, kind⟩ with
  | some row =>
    if row.completed then some (assembledOf uploadID kind row (row.data.getD [])) else none
  | none => none

/-- The asset row `Store.UpsertFromChunks` writes (every column is also in
the ON CONFLICT update list, so insert and conflict paths agree). -/
def assetFromChunks (main : AssembledSet) (fallback : Option AssembledSet) : AssetRow :=
  { version := main.version, uploadID := some main.uploadID, mime := main.mime,
    width := main.width, height := main.height, data := main.data,
    animated := main.animated, loop := main.loop,
    fallbackMime := fallback.map (fun s => s.mime),
    fallbackData := fallback.map (fun s => s.data),
    checksum := some main.checksum }

/-- Model of `Store.UpsertFromChunks` with a non-nil main set. -/
def upsertFromChunks (db : DB) (main : AssembledSet) (fallback : Option AssembledSet) : DB :=
  { db with assets := aset db.assets ⟨main.author, main.name⟩ (assetFromChunks main fallback) }

/-- Model of `Store.SetLastBlock`. -/
def setLastBlock (db : DB) (number : Int) : DB :=
  { db with lastBlock := some (toString number) }

/-- Decimal integer parse standing in for `fmt.Sscan` on the values
`SetLastBlock` writes. -/
def parseDecInt (s : String) : Option Int :=
  match s.data with
  | '-' :: ds => if ds ≠ [] ∧ ds.all Char.isDigit then some (-(digitsVal ds : Int)) else none
  | ds => if ds ≠ [] ∧ ds.all Char.isDigit then some (digitsVal ds : Int) else none

/-- Model of `Store.LastBlock`: 0 when the `last_block` row is absent. -/
def lastBlockQuery (db : DB) : Except Err Int :=
  match db.lastBlock with
  | none => .ok 0
  | some value =>
    match parseDecInt value with
    | some n => .ok n
    | none => .error .dbErr

/-! ### Go `encoding/json` struct-field decoding helpers. A field that is
absent or `null` keeps the Go zero value; a value of the wrong JSON type is
a decode error; with duplicate keys the later one wins. -/

def lastField (fields : List (String × Json)) (k : String) : Option Json :=
  fields.foldl (fun acc p => if p.1 = k then some p.2 else acc) none

/-- Unmarshalling into a struct accepts a JSON object or `null` (a no-op). -/
def objFields (j : Json) : Except String (List (String × Json)) :=
  match j with
  | .obj fields => .ok fields
  | .null => .ok []
  | _ => .error "expected object"

def fInt (fields : List (String × Json)) (k : String) : Except String Int :=
  match lastField fields k with
  | none => .ok 0
  | some .null => .ok 0
  | some (.int n) => .ok n
  | some _ => .error k

def fStr (fields : List (String × Json)) (k : String) : Except String String :=
  match lastField fields k with
  | none => .ok ""
  | some .null => .ok ""
  | some (.str s) => .ok s
  | some _ => .error k

def fBool (fields : List (String × Json)) (k : String) : Except String Bool :=
  match lastField fields k with
  | none => .ok false
  | some .null => .ok false
  | some (.bool b) => .ok b
  | some _ => .error k

def strElem (j : Json) : Except String String :=
  match j with
  | .null => .ok ""
  | .str s => .ok s
  | _ => .error "expected string"

def fStrList (fields : List (String × Json)) (k : String) : Except String (List String) :=
  match lastField fields k with
  | none => .ok []
  | some .null => .ok []
  | some (.arr xs) => xs.mapM strElem
  | some _ => .error k

/-- A `json.RawMessage` field: absent keys give an empty raw message
(modelled as `none`); a present key keeps its JSON value. -/
def fRaw (fields : List (String × Json)) (k : String) : Option Json :=
  lastField fields k

/-! ### Hive op decoding (from `internal/hive/types.go`) -/

/-- The decoded `custom_json` operation value (`hive.CustomJSONOp`). -/
structure CustomJSONOp where
  id : String
  json : Option Json
  requiredAuths : List String
  requiredPostingAuths : List String
deriving Inhabited

def decodeCustomJSON (j : Json) : Except String CustomJSONOp := do
  let fields ← objFields j
  let id ← fStr fields "id"
  let ra ← fStrList fields "required_auths"
  let rpa ← fStrList fields "required_posting_auths"
  pure ⟨id, fRaw fields "json", ra, rpa⟩

/-- Model of `CustomJSONOp.ExtractPayload` composed with the payload's later
re-parse: an absent `json` field is an error; a JSON string yields its
content bytes, which may or may not parse (`Option Json`); a `null` field
string-unmarshals to the empty string (a Go no-op), leaving unparseable
empty bytes; any other value is returned unchanged (and, being a slice of a
parsed document, re-parses to itself). -/
def extractPayload (c : CustomJSONOp) : Except String (Option Json) :=
  match c.json with
  | none => .error "missing json field"
  | some (.str s) => .ok (parseJson s)
  | some .null => .ok (parseJson "")
  | some j => .ok (some j)

/-! ### Processor (from `internal/processor/processor.go`) -/

/-- Model of `parseLoop`: an absent or `null` raw value is unset, a boolean
maps false to unset and true to 0, an integer is kept, anything else is an
error. -/
def parseLoop : Option Json → Except String (Option Int)
  | none => .ok none
  | some .null => .ok none
  | some (.bool false) => .ok none
  | some (.bool true) => .ok (some 0)
  | some (.int n) => .ok (some n)
  | some _ => .error "loop must be boolean or integer"

/-- Model of `firstNonEmpty` (author resolution). -/
def firstNonEmpty (primary fallback : List String) : String :=
  match primary with
  | p :: _ =>
    if p ≠ "" then p
    else match fallback with
      | f :: _ => f
      | [] => ""
  | [] =>
    match fallback with
    | f :: _ => f
    | [] => ""

/-- The anonymous v1 message struct decoded in `handleV1`. -/
structure V1Fallback where
  mime : String
  data : String
deriving Inhabited

structure V1Msg where
  version : Int
  op : String
  name : String
  mime : String
  width : Int
  height : Int
  data : String
  animated : Bool
  loop : Option Json
  fallback : Option V1Fallback
deriving Inhabited

def decodeV1Fallback (fields : List (String × Json)) : Except String (Option V1Fallback) :=
  match lastField fields "fallback" with
  | none => .ok none
  | some .null => .ok none
  | some (.obj ffs) => do
    let m ← fStr ffs "mime"
    let d ← fStr ffs "data"
    pure (some ⟨m, d⟩)
  | some _ => .error "fallback"

def decodeV1Msg (j : Json) : Except String V1Msg := do
  let fields ← objFields j
  let v ← fInt fields "version"
  let op ← fStr fields "op"
  let name ← fStr fields "name"
  let mime ← fStr fields "mime"
  let w ← fInt fields "width"
  let h ← fInt fields "height"
  let data ← fStr fields "data"
  let anim ← fBool fields "animated"
  let fb ← decodeV1Fallback fields
  pure { version := v, op := op, name := name, mime := mime, width := w, height := h,
         data := data, animated := anim, loop := fRaw fields "loop", fallback := fb }

/-- The `RegisterV1` record `handleV1` hands to `Store.UpsertV1`. -/
def v1Register (msg : V1Msg) (author : String) (loopv : Option Int)
    (raw : List Nat) (fallbackMime : String) (fallbackData : List Nat) : RegisterV1 :=
  { name := msg.name, author := author, mime := msg.mime, width := msg.width,
    height := msg.height, data := raw, animated := msg.animated, loop := loopv,
    fallbackMime := fallbackMime, fallbackData := fallbackData }

/-- Model of `Processor.handleV1`. -/
def handleV1 (db : DB) (j : Json) (author : String) : Except Err DB :=
  match decodeV1Msg j with
  | .error _ => .error .decodeV1
  | .ok msg =>
    if msg.op = "register" then
      match parseLoop msg.loop with
      | .error _ => .error .loopErr
      | .ok loopv =>
        match b64Decode msg.data with
        | .error _ => .error .b64
        | .ok raw =>
          match msg.fallback with
          | none => .ok (upsertV1 db (v1Register msg author loopv raw "" []))
          | some fb =>
            match b64Decode fb.data with
            | .error _ => .error .b64
            | .ok fraw => .ok (upsertV1 db (v1Register msg author loopv raw fb.mime fraw))
    else if msg.op = "delete" then deleteEmoji db author msg.name
    else .error .unknownOpV1

/-- The anonymous v2 message struct decoded in `handleV2`. -/
structure V2Msg where
  version : Int
  op : String
  id : String
  name : String
  mime : String
  width : Int
  height : Int
  animated : Bool
  loop : Option Json
  checksum : String
  kind : String
  seq : Int
  total : Int
  data : String
deriving Inhabited

def decodeV2Msg (j : Json) : Except String V2Msg := do
  let fields ← objFields j
  let v ← fInt fields "version"
  let op ← fStr fields "op"
  let id ← fStr fields "id"
  let name ← fStr fields "name"
  let mime ← fStr fields "mime"
  let w ← fInt fields "width"
  let h ← fInt fields "height"
  let anim ← fBool fields "animated"
  let ck ← fStr fields "checksum"
  let kind ← fStr fields "kind"
  let seq ← fInt fields "seq"
  let total ← fInt fields "total"
  let data ← fStr fields "data"
  pure { version := v, op := op, id := id, name := name, mime := mime, width := w,
         height := h, animated := anim, loop := fRaw fields "loop", checksum := ck,
         kind := kind, seq := seq, total := total, data := data }

/-- The `ChunkPayload` `handleV2` hands to `Store.SaveChunk` (with the kind
defaulted to "main" when empty). -/
def v2ChunkPayload (msg : V2Msg) (author : String) (loopv : Option Int)
    (bytes : List Nat) : ChunkPayload :=
  { id := msg.id, author := author, name := msg.name, version := msg.version,
    mime := msg.mime, width := msg.width, height := msg.height, animated := msg.animated,
    loop := loopv, checksum := msg.checksum,
    kind := if msg.kind = "" then "main" else msg.kind,
    seq := msg.seq, total := msg.total, data := bytes }

/-- A call to `Store.UpsertFromChunks` recorded by the completion resolver. -/
structure UpsertCall where
  main : AssembledSet
  fallback : Option AssembledSet
deriving DecidableEq, Inhabited

/-- Model of `Processor.handleCompletedSet`: resolve the main/fallback pair
for a freshly assembled set. The returned list records the
`UpsertFromChunks` calls made. -/
def handleCompletedSet (db : DB) (set : AssembledSet) : Except Err (DB × List UpsertCall) :=
  if set.kind = "main" then
    .ok (upsertFromChunks db set (getChunkSet db set.uploadID "fallback"),
         [⟨set, getChunkSet db set.uploadID "fallback"⟩])
  else if set.kind = "fallback" then
    match getChunkSet db set.uploadID "main" with
    | none => .ok (db, [])
    | some mainSet => .ok (upsertFromChunks db mainSet (some set), [⟨mainSet, some set⟩])
  else .error .unknownKind

/-- The tail of `handleV2` after decoding: save the chunk, and when this call
completed the set, dispatch to the completion resolver. -/
def processChunkPayload (db : DB) (c : ChunkPayload) : Except Err (DB × List UpsertCall) :=
  match saveChunk db c with
  | .error e => .error e
  | .ok (db1, none) => .ok (db1, [])
  | .ok (db1, some set) => handleCompletedSet db1 set

/-- Model of `Processor.handleV2`. -/
def handleV2 (db : DB) (j : Json) (author : String) : Except Err (DB × List UpsertCall) :=
  match decodeV2Msg j with
  | .error _ => .error .decodeV2
  | .ok msg =>
    if msg.op ≠ "chunk" ∧ msg.op ≠ "register" ∧ msg.op ≠ "" then .error .unsupportedOpV2
    else if msg.op = "register" ∧ msg.data = "" then .ok (db, [])
    else if msg.total ≤ 0 then .error .totalNonPos
    else if msg.seq ≤ 0 then .ok (db, [])
    else
      match parseLoop msg.loop with
      | .error _ => .error .loopErr
      | .ok loopv =>
        match b64Decode msg.data with
        | .error _ => .error .b64
        | .ok bytes => processChunkPayload db (v2ChunkPayload msg author loopv bytes)

/-- The version/op envelope decoded in `handlePayload`. -/
def decodeEnv (j : Json) : Except String (Int × String) := do
  let fields ← objFields j
  let v ← fInt fields "version"
  let op ← fStr fields "op"
  pure (v, op)

/-- The envelope step of `handlePayload` over the extracted payload bytes:
bytes that do not parse, or whose envelope fields have wrong types, fail. -/
def envOf : Option Json → Except Err (Int × String)
  | none => .error .envelope
  | some j =>
    match decodeEnv j with
    | .error _ => .error .envelope
    | .ok env => .ok env

/-- Model of `Processor.handlePayload`: decode the version envelope and route
to the v1 or v2 handler. -/
def handlePayload (db : DB) (payload : Option Json) (author : String) :
    Except Err (DB × List UpsertCall) :=
  match payload with
  | none => .error .envelope
  | some j =>
    match decodeEnv j with
    | .error _ => .error .envelope
    | .ok (v, _) =>
      if v = 1 then
        match handleV1 db j author with
        | .error e => .error e
        | .ok db' => .ok (db', [])
      else if v = 2 then handleV2 db j author
      else .error .unsupportedVersion

/-! ### Block processing (from `Processor.ProcessBlock`) -/

structure Op where
  type : String
  value : Json
deriving Inhabited

structure Transaction where
  operations : List Op
deriving Inhabited

structure Block where
  number : Int
  transactions : List Transaction
deriving Inhabited

/-- One iteration of the op loop in `ProcessBlock`: non-`custom_json` ops,
ops whose `CustomJSONOp` decode fails, foreign-namespace ops and ops whose
payload extraction fails are skipped; dispatcher errors propagate. -/
def processOp (db : DB) (op : Op) : Except Err DB :=
  if op.type ≠ "custom_json" then .ok db
  else
    match decodeCustomJSON op.value with
    | .error _ => .ok db
    | .ok custom =>
      if custom.id ≠ "hivemoji" then .ok db
      else
        match extractPayload custom with
        | .error _ => .ok db
        | .ok payload =>
          match handlePayload db payload
              (firstNonEmpty custom.requiredPostingAuths custom.requiredAuths) with
          | .error e => .error e
          | .ok (db', _) => .ok db'

def processOps (db : DB) : List Op → Except Err DB
  | [] => .ok db
  | op :: rest =>
    match processOp db op with
    | .error e => .error e
    | .ok db' => processOps db' rest

/-- Model of `Processor.ProcessBlock`: handle every op of every transaction
in order; an error aborts the block before the cursor write; on success the
`last_block` cursor is advanced. -/
def processBlock (db : DB) (b : Block) : Except Err DB :=
  match processOps db ((b.transactions.map (fun t => t.operations)).foldr (· ++ ·) []) with
  | .error e => .error e
  | .ok db' => .ok (setLastBlock db' b.number)

/-! ### Block follower startup (from `ingestLoop` in `cmd/server/main.go`) -/

/-- The resume computation: `current := cfg.StartBlock`, bumped to `last+1`
when a positive cursor is ahead of it. -/
def resumeBlock (startBlock last : Int) : Int :=
  if last > 0 ∧ last + 1 > startBlock then last + 1 else startBlock

/-- The first block `ingestLoop` requests: `LastBlock` errors are logged and
leave the cursor at 0. -/
def firstBlock (startBlock : Int) (db : DB) : Int :=
  match lastBlockQuery db with
  | .ok last => resumeBlock startBlock last
  | .error _ => resumeBlock startBlock 0

/-! ### Derived notions used by the theorems -/

/-- Result extractors for concrete runs of `saveChunk`. -/
def okDB : Except Err (DB × Option AssembledSet) → DB
  | .ok (db, _) => db
  | .error _ => dbEmpty

def okSet : Except Err (DB × Option AssembledSet) → Option AssembledSet
  | .ok (_, s) => s
  | .error _ => none

def okDB1 : Except Err DB → DB
  | .ok db => db
  | .error _ => dbEmpty

/-- Whether a result is the assembler's "no chunks to assemble" error. -/
def isNoChunksErr {α : Type} : Except Err α → Bool
  | .error .noChunks => true
  | _ => false

/-- The Asset invariant of the specification: non-empty bytes and a
normalized, whitelisted mime type. -/
def assetInvariant (r : AssetRow) : Prop :=
  r.data ≠ [] ∧ NormalizeEmojiMime r.mime = some r.mime

instance (r : AssetRow) : Decidable (assetInvariant r) := by
  unfold assetInvariant
  infer_instance

/-! ### Association-list lemmas -/

theorem alookup_aset_self {α β : Type} [DecidableEq α] (l : List (α × β)) (k : α) (v : β) :
    alookup (aset l k v) k = some v := by
  induction l with
  | nil => simp [aset, alookup]
  | cons p rest ih =>
    obtain ⟨k', v'⟩ := p
    by_cases hk : k = k'
    · simp [aset, alookup, hk]
    · simp [aset, alookup, hk, ih]

theorem alookup_aset_ne {α β : Type} [DecidableEq α] (l : List (α × β)) (k k' : α) (v : β)
    (h : k' ≠ k) : alookup (aset l k v) k' = alookup l k' := by
  induction l with
  | nil => simp [aset, alookup, h]
  | cons p rest ih =>
    obtain ⟨k₀, v₀⟩ := p
    by_cases hk : k = k₀
    · subst hk
      simp [aset, alookup, h]
    · by_cases hk' : k' = k₀ <;> simp [aset, alookup, hk, hk', ih]

theorem alookup_mem {α β : Type} [DecidableEq α] {l : List (α × β)} {k : α} {v : β}
    (h : alookup l k = some v) : (k, v) ∈ l := by
  induction l with
  | nil => simp [alookup] at h
  | cons p rest ih =>
    obtain ⟨k', v'⟩ := p
    by_cases hk : k = k'
    · subst hk
      simp [alookup] at h
      simp [h]
    · simp [alookup, hk] at h
      exact List.mem_cons_of_mem _ (ih h)

theorem sortBySeq_ne_nil {l : List (ChunkKey × ChunkRow)} (h : l ≠ []) :
    sortBySeq l ≠ [] := by
  cases l with
  | nil => exact absurd rfl h
  | cons p rest =>
    simp only [sortBySeq]
    cases hs : sortBySeq rest with
    | nil => simp [insertBySeq]
    | cons q qs =>
      simp only [insertBySeq]
      split <;> simp

theorem length_insertBySeq (p : ChunkKey × ChunkRow) (l : List (ChunkKey × ChunkRow)) :
    (insertBySeq p l).length = l.length + 1 := by
  induction l with
  | nil => simp [insertBySeq]
  | cons q rest ih =>
    simp only [insertBySeq]
    split <;> simp [ih]

theorem length_sortBySeq (l : List (ChunkKey × ChunkRow)) :
    (sortBySeq l).length = l.length := by
  induction l with
  | nil => simp [sortBySeq]
  | cons p rest ih => simp [sortBySeq, length_insertBySeq, ih]

/-! ### Frame and shape lemmas for the chunk store -/

theorem upsertChunkSetMeta_chunks (db : DB) (c : ChunkPayload) :
    (upsertChunkSetMeta db c).chunks = db.chunks := by
  cases h : alookup db.chunkSets (⟨c.id, c.kind⟩ : SetKey) <;>
    simp [upsertChunkSetMeta, h]

theorem upsertChunkSetMeta_assets (db : DB) (c : ChunkPayload) :
    (upsertChunkSetMeta db c).assets = db.assets := by
  cases h : alookup db.chunkSets (⟨c.id, c.kind⟩ : SetKey) <;>
    simp [upsertChunkSetMeta, h]

theorem insertChunkIfAbsent_assets (db : DB) (c : ChunkPayload) :
    (insertChunkIfAbsent db c).assets = db.assets := by
  cases h : alookup db.chunks (⟨c.id, c.kind, c.seq⟩ : ChunkKey) <;>
    simp [insertChunkIfAbsent, h]

theorem insertChunkIfAbsent_chunkSets (db : DB) (c : ChunkPayload) :
    (insertChunkIfAbsent db c).chunkSets = db.chunkSets := by
  cases h : alookup db.chunks (⟨c.id, c.kind, c.seq⟩ : ChunkKey) <;>
    simp [insertChunkIfAbsent, h]

/-- After the insert step the chunk row for the incoming key is present:
either it already existed or it was just inserted. -/
theorem insertChunk_present (db : DB) (c : ChunkPayload) :
    ∃ row, alookup (insertChunkIfAbsent db c).chunks ⟨c.id, c.kind, c.seq⟩ = some row := by
  unfold insertChunkIfAbsent
  cases h : alookup db.chunks ⟨c.id, c.kind, c.seq⟩ with
  | some r => exact ⟨r, by simp [h]⟩
  | none => exact ⟨⟨c.total, c.data⟩, by simp [h, alookup_aset_self]⟩

theorem chunksFor_ne_nil {db : DB} {id kind : String} {seq : Int} {row : ChunkRow}
    (h : alookup db.chunks ⟨id, kind, seq⟩ = some row) :
    chunksFor db id kind ≠ [] := by
  have hmem : (ChunkKey.mk id kind seq, row) ∈ db.chunks := alookup_mem h
  have : (ChunkKey.mk id kind seq, row) ∈ chunksFor db id kind := by
    simp only [chunksFor, List.mem_filter]
    exact ⟨hmem, by simp⟩
  exact List.ne_nil_of_mem this

/-- The chunk rows of `pendingChunksDB` always contain the incoming chunk's
key, so the assembly query never sees an empty set. -/
theorem pendingChunks_nonempty (db : DB) (c : ChunkPayload) :
    chunksFor (pendingChunksDB db c) c.id c.kind ≠ [] := by
  obtain ⟨row, hrow⟩ := insertChunk_present (upsertChunkSetMeta db c) c
  exact chunksFor_ne_nil hrow

theorem pendingChunksDB_assets (db : DB) (c : ChunkPayload) :
    (pendingChunksDB db c).assets = db.assets := by
  rw [pendingChunksDB, insertChunkIfAbsent_assets, upsertChunkSetMeta_assets]

/-- A successful `saveChunk` that returns a set got it from the assembler
run on the post-insert transaction state. -/
theorem saveChunk_ok_some {db : DB} {c : ChunkPayload} {db' : DB} {s : AssembledSet}
    (h : saveChunk db c = .ok (db', some s)) :
    assembleChunks (pendingChunksDB db c) c.id c.kind = .ok (db', s) := by
  unfold saveChunk at h
  split at h
  · simp at h
  · split at h
    · simp at h
    · rename_i heq
      simp only [Except.ok.injEq, Prod.mk.injEq, Option.some.injEq] at h
      obtain ⟨h1, h2⟩ := h
      subst h1
      subst h2
      exact heq

/-- What a successful assembly tells us about its inputs and outputs. -/
theorem assemble_ok {db : DB} {id kind : String} {db' : DB} {s : AssembledSet}
    (h : assembleChunks db id kind = .ok (db', s)) :
    ∃ row, alookup db.chunkSets ⟨id, kind⟩ = some row ∧
      db' = markCompleted db id kind row (assemblyBuffer db id kind) ∧
      s = assembledOf id kind row (assemblyBuffer db id kind) ∧
      (row.checksum ≠ "" → eqFold row.checksum (sha256Hex (assemblyBuffer db id kind)) = true) := by
  unfold assembleChunks at h
  split at h
  · simp at h
  · split at h
    · simp at h
    · rename_i row hrow
      split at h
      · simp at h
      · split at h
        · simp at h
        · rename_i hck
          simp only [Except.ok.injEq, Prod.mk.injEq] at h
          obtain ⟨h1, h2⟩ := h
          refine ⟨row, hrow, h1.symm, h2.symm, fun hcs => ?_⟩
          cases hb : eqFold row.checksum (sha256Hex (assemblyBuffer db id kind)) with
          | false => exact absurd ⟨hcs, hb⟩ hck
          | true => rfl

/-- After a successful assembly the completed set is readable back through
`GetChunkSet`, and it carries the queried key. -/
theorem assemble_getChunkSet {db : DB} {id kind : String} {db' : DB} {s : AssembledSet}
    (h : assembleChunks db id kind = .ok (db', s)) :
    getChunkSet db' id kind = some s ∧ s.uploadID = id ∧ s.kind = kind := by
  obtain ⟨row, _, hdb, hs, _⟩ := assemble_ok h
  subst hdb
  subst hs
  refine ⟨?_, rfl, rfl⟩
  unfold getChunkSet markCompleted
  simp [alookup_aset_self, completedSetRow, assembledOf]

/-- `saveChunk` never touches the assets table. -/
theorem saveChunk_assets {db : DB} {c : ChunkPayload} {db' : DB} {r : Option AssembledSet}
    (h : saveChunk db c = .ok (db', r)) : db'.assets = db.assets := by
  unfold saveChunk at h
  split at h
  · simp only [Except.ok.injEq, Prod.mk.injEq] at h
    obtain ⟨h1, _⟩ := h
    subst h1
    exact pendingChunksDB_assets db c
  · split at h
    · simp at h
    · rename_i heq
      simp only [Except.ok.injEq, Prod.mk.injEq] at h
      obtain ⟨h1, _⟩ := h
      subst h1
      obtain ⟨row, _, hdb, _, _⟩ := assemble_ok heq
      subst hdb
      simpa [markCompleted] using pendingChunksDB_assets db c

theorem upsertChunkSetMeta_other (db : DB) (c : ChunkPayload) (k : SetKey)
    (hk : k ≠ ⟨c.id, c.kind⟩) :
    alookup (upsertChunkSetMeta db c).chunkSets k = alookup db.chunkSets k := by
  unfold upsertChunkSetMeta
  cases h : alookup db.chunkSets (⟨c.id, c.kind⟩ : SetKey) <;>
    simp [h, alookup_aset_ne _ _ _ _ hk]

/-- `saveChunk` only writes the chunk-set row of its own (upload_id, kind). -/
theorem saveChunk_sets_other {db : DB} {c : ChunkPayload} {db' : DB} {r : Option AssembledSet}
    (h : saveChunk db c = .ok (db', r)) (k : SetKey) (hk : k ≠ ⟨c.id, c.kind⟩) :
    alookup db'.chunkSets k = alookup db.chunkSets k := by
  have hpend : alookup (pendingChunksDB db c).chunkSets k = alookup db.chunkSets k := by
    rw [pendingChunksDB, insertChunkIfAbsent_chunkSets]
    exact upsertChunkSetMeta_other db c k hk
  unfold saveChunk at h
  split at h
  · simp only [Except.ok.injEq, Prod.mk.injEq] at h
    obtain ⟨h1, _⟩ := h
    subst h1
    exact hpend
  · split at h
    · simp at h
    · rename_i heq
      simp only [Except.ok.injEq, Prod.mk.injEq] at h
      obtain ⟨h1, _⟩ := h
      subst h1
      obtain ⟨row, _, hdb, _, _⟩ := assemble_ok heq
      subst hdb
      rw [markCompleted]
      simpa [alookup_aset_ne _ _ _ _ hk] using hpend

theorem getChunkSet_congr {db db' : DB} {id kind : String}
    (h : alookup db'.chunkSets ⟨id, kind⟩ = alookup db.chunkSets ⟨id, kind⟩) :
    getChunkSet db' id kind = getChunkSet db id kind := by
  unfold getChunkSet
  rw [h]

theorem isEmpty_false_of_ne_nil {α : Type} {l : List α} (h : l ≠ []) :
    l.isEmpty = false := by
  cases l with
  | nil => exact absurd rfl h
  | cons a t => rfl

theorem assemblyParts_isEmpty_false {db : DB} {id kind : String}
    (h : chunksFor db id kind ≠ []) :
    (assemblyParts db id kind).isEmpty = false := by
  apply isEmpty_false_of_ne_nil
  have := sortBySeq_ne_nil h
  simp only [assemblyParts, ne_eq, List.map_eq_nil_iff]
  exact this

/-- Assembly on a non-empty chunk set never takes the "no chunks" branch. -/
theorem assemble_not_noChunks {db : DB} {id kind : String}
    (h : chunksFor db id kind ≠ []) :
    isNoChunksErr (assembleChunks db id kind) = false := by
  unfold assembleChunks
  rw [assemblyParts_isEmpty_false h]
  simp only [Bool.false_eq_true, if_false]
  split
  · rfl
  · split
    · rfl
    · split
      · rfl
      · rfl

/-- C9: whenever `SaveChunk` invokes the assembler, at least one chunk row
exists for (upload_id, kind) — the chunk just inserted or its pre-existing
duplicate — so the assembler's "no chunks to assemble" error is unreachable
from `saveChunk` for every input chunk payload. -/
theorem C9_no_chunks_unreachable :
    ∀ (db : DB) (c : ChunkPayload),
      (chunksFor (pendingChunksDB db c) c.id c.kind).isEmpty = false ∧
      isNoChunksErr (saveChunk db c) = false := by
  intro db c
  have hne := pendingChunks_nonempty db c
  refine ⟨isEmpty_false_of_ne_nil hne, ?_⟩
  unfold saveChunk
  split
  · rfl
  · have hno : isNoChunksErr (assembleChunks (pendingChunksDB db c) c.id c.kind) = false :=
      assemble_not_noChunks hne
    cases heq : assembleChunks (pendingChunksDB db c) c.id c.kind with
    | error e =>
      rw [heq] at hno
      cases e <;> simp_all [isNoChunksErr]
    | ok p => rfl

/-- C7: at follower startup the first block requested is
max(start_block, LastBlock+1) when the cursor is positive and start_block
otherwise, and `LastBlock` reads 0 when the `last_block` row is absent. -/
theorem C7_resume_rule :
    (∀ startBlock last : Int, last > 0 →
       resumeBlock startBlock last = max startBlock (last + 1)) ∧
    (∀ startBlock last : Int, ¬ last > 0 → resumeBlock startBlock last = startBlock) ∧
    (∀ db : DB, db.lastBlock = none → lastBlockQuery db = .ok 0) ∧
    (∀ (startBlock last : Int) (db : DB), lastBlockQuery db = .ok last →
       firstBlock startBlock db = resumeBlock startBlock last) := by
  refine ⟨?_, ?_, ?_, ?_⟩
  · intro sb last h
    unfold resumeBlock
    by_cases h2 : last + 1 > sb
    · simp only [h, h2, and_self, if_true]
      omega
    · simp only [h, h2, and_false, if_false]
      omega
  · intro sb last h
    simp [resumeBlock, h]
  · intro db h
    simp [lastBlockQuery, h]
  · intro sb last db h
    unfold firstBlock
    rw [h]

/-- C7 witness: the rule evaluated at concrete cursors. -/
theorem C7_resume_rule_witness :
    resumeBlock 5 10 = max 5 11 ∧ resumeBlock 5 0 = 5 ∧
    lastBlockQuery dbEmpty = .ok 0 ∧ firstBlock 5 (setLastBlock dbEmpty 10) = resumeBlock 5 10 :=
  ⟨C7_resume_rule.1 5 10 (by decide), C7_resume_rule.2.1 5 0 (by decide),
   C7_resume_rule.2.2.1 dbEmpty rfl, C7_resume_rule.2.2.2 5 10 (setLastBlock dbEmpty 10) rfl⟩

/-- A v1 register with no fallback, decoded fields and a fresh (author, name)
key writes exactly the `v1Row` built from the payload. -/
theorem handleV1_register_fresh {db : DB} {j : Json} {author : String} {msg : V1Msg}
    {loopv : Option Int} {raw : List Nat} {db' : DB}
    (hdec : decodeV1Msg j = .ok msg) (hop : msg.op = "register") (hfb : msg.fallback = none)
    (hloop : parseLoop msg.loop = .ok loopv) (hb64 : b64Decode msg.data = .ok raw)
    (hfresh : alookup db.assets ⟨author, msg.name⟩ = none)
    (hok : handleV1 db j author = .ok db') :
    alookup db'.assets ⟨author, msg.name⟩
      = some (v1Row (v1Register msg author loopv raw "" []) none) := by
  have hstep : handleV1 db j author = .ok (upsertV1 db (v1Register msg author loopv raw "" [])) := by
    unfold handleV1
    rw [hdec]
    simp [hop, hloop, hb64, hfb]
  rw [hstep] at hok
  have hdb : db' = upsertV1 db (v1Register msg author loopv raw "" []) := by
    injection hok with h
    exact h.symm
  subst hdb
  unfold upsertV1
  have hkey : alookup db.assets
      (⟨(v1Register msg author loopv raw "" []).author,
        (v1Register msg author loopv raw "" []).name⟩ : AssetKey) = none := hfresh
  rw [hkey]
  exact alookup_aset_self _ _ _

/-- C8: the v1 loop field decodes as absent or null to unset, false to unset,
true to 0, an integer to itself, and any other JSON value to an error; the
decoded value is what a register stores. -/
theorem C8_loop_decoding :
    parseLoop none = .ok none ∧
    parseLoop (some Json.null) = .ok none ∧
    parseLoop (some (Json.bool false)) = .ok none ∧
    parseLoop (some (Json.bool true)) = .ok (some 0) ∧
    (∀ n : Int, parseLoop (some (Json.int n)) = .ok (some n)) ∧
    (∀ s : String, parseLoop (some (Json.str s)) = .error "loop must be boolean or integer") ∧
    parseLoop (some Json.frac) = .error "loop must be boolean or integer" ∧
    (∀ xs : List Json, parseLoop (some (Json.arr xs)) = .error "loop must be boolean or integer") ∧
    (∀ fs : List (String × Json),
       parseLoop (some (Json.obj fs)) = .error "loop must be boolean or integer") ∧
    (∀ (db : DB) (j : Json) (author : String) (msg : V1Msg) (loopv : Option Int)
       (raw : List Nat) (db' : DB),
       decodeV1Msg j = .ok msg → msg.op = "register" → msg.fallback = none →
       parseLoop msg.loop = .ok loopv → b64Decode msg.data = .ok raw →
       alookup db.assets ⟨author, msg.name⟩ = none →
       handleV1 db j author = .ok db' →
       (alookup db'.assets ⟨author, msg.name⟩).map (fun r => r.loop) = some loopv) := by
  refine ⟨rfl, rfl, rfl, rfl, fun n => rfl, fun s => rfl, rfl, fun xs => rfl, fun fs => rfl,
    fun db j author msg loopv raw db' hdec hop hfb hloop hb64 hfresh hok => ?_⟩
  rw [handleV1_register_fresh hdec hop hfb hloop hb64 hfresh hok]
  rfl

/-- C8 witness: a concrete register with `"loop": true` stores loop 0. -/
def c8Json : Json :=
  Json.obj [("version", Json.int 1), ("op", Json.str "register"), ("name", Json.str "spin"),
            ("mime", Json.str "image/gif"), ("data", Json.str "AA=="),
            ("loop", Json.bool true)]

def c8Msg : V1Msg :=
  { version := 1, op := "register", name := "spin", mime := "image/gif", width := 0,
    height := 0, data := "AA==", animated := false, loop := some (Json.bool true),
    fallback := none }

def c8db : DB := okDB1 (handleV1 dbEmpty c8Json "bob")

theorem C8_loop_decoding_witness :
    (alookup c8db.assets ⟨"bob", "spin"⟩).map (fun r => r.loop) = some (some 0) :=
  C8_loop_decoding.2.2.2.2.2.2.2.2.2 dbEmpty c8Json "bob" c8Msg (some 0) [0] c8db
    rfl rfl rfl rfl rfl rfl rfl

/-- C6 counterexample input: a v1 register carrying a non-whitelisted mime
and an empty (base64 "") data payload. -/
def c6Json : Json :=
  Json.obj [("version", Json.int 1), ("op", Json.str "register"), ("name", Json.str "x"),
            ("mime", Json.str "text/html"), ("data", Json.str "")]

def c6db : DB := okDB1 (handleV1 dbEmpty c6Json "eve")

def c6Row : AssetRow :=
  { version := 1, uploadID := none, mime := "text/html", width := 0, height := 0,
    data := [], animated := false, loop := none, fallbackMime := none,
    fallbackData := none, checksum := none }

/-- C6 counterexample: the ingestion pipeline accepts a register whose bytes
are empty and whose mime is not whitelisted, and stores the row verbatim, so
not every pipeline-reachable Asset row satisfies the Asset invariant. -/
theorem C6_invariant_counterexample :
    handleV1 dbEmpty c6Json "eve" = .ok c6db ∧
    alookup c6db.assets ⟨"eve", "x"⟩ = some c6Row ∧
    ¬ assetInvariant c6Row :=
  ⟨rfl, rfl, by decide⟩

/-- C6 (amended): the v1 ingestion path stores the payload mime and decoded
bytes verbatim with no validation, so a row written by a register satisfies
the Asset invariant exactly when the payload itself already carried
non-empty data and a normalized whitelisted mime. -/
theorem C6_invariant_amended :
    ∀ (db : DB) (j : Json) (author : String) (msg : V1Msg) (loopv : Option Int)
      (raw : List Nat) (db' : DB),
      decodeV1Msg j = .ok msg → msg.op = "register" → msg.fallback = none →
      parseLoop msg.loop = .ok loopv → b64Decode msg.data = .ok raw →
      alookup db.assets ⟨author, msg.name⟩ = none →
      handleV1 db j author = .ok db' →
      alookup db'.assets ⟨author, msg.name⟩
          = some (v1Row (v1Register msg author loopv raw "" []) none) ∧
      (v1Row (v1Register msg author loopv raw "" []) none).mime = msg.mime ∧
      (v1Row (v1Register msg author loopv raw "" []) none).data = raw ∧
      (assetInvariant (v1Row (v1Register msg author loopv raw "" []) none) ↔
        raw ≠ [] ∧ NormalizeEmojiMime msg.mime = some msg.mime) := by
  intro db j author msg loopv raw db' hdec hop hfb hloop hb64 hfresh hok
  refine ⟨handleV1_register_fresh hdec hop hfb hloop hb64 hfresh hok, rfl, rfl, ?_⟩
  simp [assetInvariant, v1Row, v1Register]

/-- C6 witness input: a register that does satisfy the invariant. -/
def c6GoodJson : Json :=
  Json.obj [("version", Json.int 1), ("op", Json.str "register"), ("name", Json.str "ok"),
            ("mime", Json.str "image/png"), ("data", Json.str "AA==")]

def c6GoodMsg : V1Msg :=
  { version := 1, op := "register", name := "ok", mime := "image/png", width := 0,
    height := 0, data := "AA==", animated := false, loop := none, fallback := none }

def c6GoodDB : DB := okDB1 (handleV1 dbEmpty c6GoodJson "bob")

theorem C6_invariant_amended_witness :
    alookup c6GoodDB.assets ⟨"bob", "ok"⟩
      = some (v1Row (v1Register c6GoodMsg "bob" none [0] "" []) none) :=
  (C6_invariant_amended dbEmpty c6GoodJson "bob" c6GoodMsg none [0] c6GoodDB
    rfl rfl rfl rfl rfl rfl rfl).1

/-- C1 failing input: a single-chunk upload whose one chunk is submitted a
second time after the set already completed. -/
def c1Chunk : ChunkPayload :=
  { id := "U", author := "a", name := "emo", version := 2, mime := "image/png", width := 1,
    height := 1, animated := false, loop := none, checksum := "", kind := "main", seq := 1,
    total := 1, data := [1] }

def c1db1 : DB := okDB (saveChunk dbEmpty c1Chunk)

/-- C1: resubmitting the final chunk after completion leaves the store state
unchanged (the idempotence the claim asserts), but `saveChunk` re-runs the
assembler and returns the assembled set a second time, contradicting the
claim's (and the source comment's) "returns the completed set if this call
closed it / non-null at most once". -/
theorem C1_duplicate_returns_set_again :
    (okSet (saveChunk dbEmpty c1Chunk)).isSome = true ∧
    (okSet (saveChunk c1db1 c1Chunk)).isSome = true ∧
    okDB (saveChunk c1db1 c1Chunk) = c1db1 :=
  ⟨rfl, rfl, rfl⟩

/-- C2 failing input: a pre-existing v2 row with a non-null checksum being
replaced by a v1 register for the same (author, name). -/
def c2Prior : AssetRow :=
  { version := 2, uploadID := some "U", mime := "image/png", width := 1, height := 1,
    data := [1], animated := false, loop := none, fallbackMime := none, fallbackData := none,
    checksum := some "c0ffee" }

def c2db : DB := { dbEmpty with assets := [(⟨"a", "e"⟩, c2Prior)] }

def c2Payload : RegisterV1 :=
  { name := "e", author := "a", mime := "image/png", width := 1, height := 1, data := [2],
    animated := false, loop := none, fallbackMime := "", fallbackData := [] }

/-- C2: on the conflict path `UpsertV1` sets version 1, clears upload_id and
stores empty fallback mime/data as null, but the ON CONFLICT DO UPDATE list
omits `checksum`, so the pre-existing non-null checksum survives, contrary
to the claim; on the insert path checksum is null as claimed. -/
theorem C2_checksum_not_cleared :
    (alookup (upsertV1 c2db c2Payload).assets ⟨"a", "e"⟩).map
        (fun r => (r.version, r.uploadID, r.checksum, r.fallbackMime, r.fallbackData))
      = some ((1 : Int), (none : Option String), some "c0ffee",
              (none : Option String), (none : Option (List Nat))) ∧
    (alookup (upsertV1 dbEmpty c2Payload).assets ⟨"a", "e"⟩).map (fun r => r.checksum)
      = some (none : Option String) :=
  ⟨rfl, rfl⟩

/-- C3 counterexample input: a hivemoji `custom_json` op whose `json` field
is a string that is not a JSON document, so envelope decoding fails. -/
def c3Op : Op :=
  { type := "custom_json",
    value := Json.obj [("id", Json.str "hivemoji"), ("json", Json.str "not-json")] }

def c3Block : Block := { number := 7, transactions := [⟨[c3Op]⟩] }

/-- C3 counterexample: a block containing one hivemoji op whose extracted
payload fails envelope decoding makes `processBlock` return an error (the
block would be retried), instead of the claimed log-and-skip success. -/
theorem C3_envelope_aborts_block :
    processBlock dbEmpty c3Block = .error .envelope :=
  rfl

/-- C3 (amended): ops whose `custom_json` decode fails and ops whose payload
extraction fails are logged and skipped, leaving the state unchanged and
continuing; but a payload that fails envelope decoding (unparseable bytes or
wrongly-typed envelope fields) aborts `ProcessBlock` with an error rather
than being skipped. -/
theorem C3_malformed_op_policy :
    (∀ (db : DB) (op : Op) (e : String), op.type = "custom_json" →
       decodeCustomJSON op.value = .error e → processOp db op = .ok db) ∧
    (∀ (db : DB) (op : Op) (c : CustomJSONOp) (e : String), op.type = "custom_json" →
       decodeCustomJSON op.value = .ok c → c.id = "hivemoji" →
       extractPayload c = .error e → processOp db op = .ok db) ∧
    (∀ (db : DB) (op : Op) (c : CustomJSONOp) (p : Option Json) (e : Err),
       op.type = "custom_json" →
       decodeCustomJSON op.value = .ok c → c.id = "hivemoji" →
       extractPayload c = .ok p → envOf p = .error e →
       processOp db op = .error e) := by
  refine ⟨?_, ?_, ?_⟩
  · intro db op e htype hdec
    unfold processOp
    simp [htype, hdec]
  · intro db op c e htype hdec hid hext
    unfold processOp
    simp [htype, hdec, hid, hext]
  · intro db op c p e htype hdec hid hext henv
    unfold processOp
    simp only [htype, ne_eq, not_true_eq_false, if_false, hdec, hid, hext]
    cases p with
    | none =>
      simp only [envOf] at henv
      injection henv with he
      subst he
      rfl
    | some j =>
      cases hde : decodeEnv j with
      | error e2 =>
        simp only [envOf, hde] at henv
        injection henv with he
        subst he
        simp [handlePayload, hde]
      | ok env =>
        simp only [envOf, hde] at henv
        simp at henv

/-- C3 witness inputs: an op whose `custom_json` decode fails, and the
malformed-envelope op, evaluated through the amended policy. -/
def c3BadOp : Op := { type := "custom_json", value := Json.int 3 }

def c3CustomOp : CustomJSONOp :=
  { id := "hivemoji", json := some (Json.str "not-json"), requiredAuths := [],
    requiredPostingAuths := [] }

theorem C3_malformed_op_policy_witness :
    processOp dbEmpty c3BadOp = .ok dbEmpty ∧ processOp dbEmpty c3Op = .error .envelope :=
  ⟨C3_malformed_op_policy.1 dbEmpty c3BadOp "expected object" rfl rfl,
   C3_malformed_op_policy.2.2 dbEmpty c3Op c3CustomOp none Err.envelope rfl rfl rfl rfl rfl⟩

/-- C10: the v2 handler runs the loop field through the same `parseLoop`
decoder as v1 — so a boolean loop is accepted even though the v2 wire format
declares int|null, with true stored as 0 and false or null as unset — and
hands `SaveChunk` a chunk payload carrying exactly the decoded value. -/
theorem C10_v2_loop_decoder :
    (∀ (msg : V2Msg) (author : String) (loopv : Option Int) (bytes : List Nat),
       (v2ChunkPayload msg author loopv bytes).loop = loopv) ∧
    parseLoop (some (Json.bool true)) = .ok (some 0) ∧
    parseLoop (some (Json.bool false)) = .ok none ∧
    parseLoop (some Json.null) = .ok none ∧
    (∀ (db : DB) (j : Json) (author : String) (msg : V2Msg) (loopv : Option Int)
       (bytes : List Nat),
       decodeV2Msg j = .ok msg → msg.op = "chunk" → ¬ msg.total ≤ 0 → ¬ msg.seq ≤ 0 →
       parseLoop msg.loop = .ok loopv → b64Decode msg.data = .ok bytes →
       handleV2 db j author = processChunkPayload db (v2ChunkPayload msg author loopv bytes)) := by
  refine ⟨fun msg author loopv bytes => rfl, rfl, rfl, rfl, ?_⟩
  intro db j author msg loopv bytes hdec hop htot hseq hloop hb64
  unfold handleV2
  rw [hdec]
  simp [hop, htot, hseq, hloop, hb64]

/-- C10 witness input: a v2 chunk op with `"loop": true`. -/
def c10Json : Json :=
  Json.obj [("version", Json.int 2), ("op", Json.str "chunk"), ("id", Json.str "W"),
            ("name", Json.str "e"), ("mime", Json.str "image/png"), ("kind", Json.str "main"),
            ("seq", Json.int 1), ("total", Json.int 2), ("data", Json.str "AA=="),
            ("loop", Json.bool true)]

def c10Msg : V2Msg :=
  { version := 2, op := "chunk", id := "W", name := "e", mime := "image/png", width := 0,
    height := 0, animated := false, loop := some (Json.bool true), checksum := "",
    kind := "main", seq := 1, total := 2, data := "AA==" }

theorem C10_v2_loop_decoder_witness :
    handleV2 dbEmpty c10Json "a"
      = processChunkPayload dbEmpty (v2ChunkPayload c10Msg "a" (some 0) [0]) :=
  C10_v2_loop_decoder.2.2.2.2 dbEmpty c10Json "a" c10Msg (some 0) [0]
    rfl rfl (by decide) (by decide) rfl rfl

/-- Result extractors for concrete runs of `assembleChunks`. -/
def okDB2 : Except Err (DB × AssembledSet) → DB
  | .ok (db, _) => db
  | .error _ => dbEmpty

def okSet2 : Except Err (DB × AssembledSet) → AssembledSet
  | .ok (_, s) => s
  | .error _ => default

/-- C4 (amended): when assembly fires with a non-empty declared checksum, a
digest mismatch makes the whole `saveChunk` transaction fail with
`checksumMismatch` (so it rolls back), every set `assembleChunks` completes
satisfies the case-insensitive digest equation at that moment, and
`UpsertFromChunks` copies the main set's bytes and checksum into the asset
row verbatim; the equation can later be broken on a completed row because a
further chunk overwrites the checksum metadata without re-verification. -/
theorem C4_checksum_verification :
    (∀ (db : DB) (id kind : String) (db' : DB) (s : AssembledSet),
       assembleChunks db id kind = .ok (db', s) → s.checksum ≠ "" →
       eqFold s.checksum (sha256Hex s.data) = true) ∧
    (∀ (db : DB) (main : AssembledSet) (fb : Option AssembledSet),
       alookup (upsertFromChunks db main fb).assets ⟨main.author, main.name⟩
           = some (assetFromChunks main fb) ∧
       (assetFromChunks main fb).checksum = some main.checksum ∧
       (assetFromChunks main fb).data = main.data) ∧
    (∀ (db : DB) (c : ChunkPayload),
       ¬ ((chunksFor (pendingChunksDB db c) c.id c.kind).length : Int) < c.total →
       assembleChunks (pendingChunksDB db c) c.id c.kind = .error .checksumMismatch →
       saveChunk db c = .error .checksumMismatch) ∧
    (∀ (db : DB) (id kind : String) (row : SetRow),
       alookup db.chunkSets ⟨id, kind⟩ = some row →
       chunksFor db id kind ≠ [] →
       ((assemblyParts db id kind).length : Int) = row.total →
       row.checksum ≠ "" →
       eqFold row.checksum (sha256Hex (assemblyBuffer db id kind)) = false →
       assembleChunks db id kind = .error .checksumMismatch) := by
  refine ⟨?_, ?_, ?_, ?_⟩
  · intro db id kind db' s h hcs
    obtain ⟨row, _, _, hs, himp⟩ := assemble_ok h
    have hck : s.checksum = row.checksum := by rw [hs]; rfl
    have hdata : s.data = assemblyBuffer db id kind := by rw [hs]; rfl
    rw [hck, hdata]
    exact himp (hck ▸ hcs)
  · intro db main fb
    refine ⟨?_, rfl, rfl⟩
    unfold upsertFromChunks
    exact alookup_aset_self _ _ _
  · intro db c hcount hasm
    unfold saveChunk
    rw [if_neg hcount, hasm]
  · intro db id kind row hrow hne hlen hcs hmis
    unfold assembleChunks
    rw [assemblyParts_isEmpty_false hne]
    simp only [Bool.false_eq_true, if_false, hrow]
    rw [if_neg (fun h => h hlen), if_pos ⟨hcs, hmis⟩]

/-- C4 good input: a single empty chunk whose declared checksum is the
SHA-256 digest of the empty message, in upper case. -/
def c4Chunk : ChunkPayload :=
  { id := "U", author := "a", name := "emo", version := 2, mime := "image/png", width := 1,
    height := 1, animated := false, loop := none,
    checksum := "E3B0C44298FC1C149AFBF4C8996FB92427AE41E4649B934CA495991B7852B855",
    kind := "main", seq := 1, total := 1, data := [] }

/-- C4 bad input: the same chunk with a wrong declared checksum. -/
def c4Bad : ChunkPayload := { c4Chunk with checksum := "ff" }

theorem C4_checksum_verification_witness :
    saveChunk dbEmpty c4Bad = .error .checksumMismatch ∧
    eqFold (okSet2 (assembleChunks (pendingChunksDB dbEmpty c4Chunk) "U" "main")).checksum
      (sha256Hex (okSet2 (assembleChunks (pendingChunksDB dbEmpty c4Chunk) "U" "main")).data)
      = true :=
  ⟨C4_checksum_verification.2.2.1 dbEmpty c4Bad (by decide) rfl,
   C4_checksum_verification.1 (pendingChunksDB dbEmpty c4Chunk) "U" "main"
     (okDB2 (assembleChunks (pendingChunksDB dbEmpty c4Chunk) "U" "main"))
     (okSet2 (assembleChunks (pendingChunksDB dbEmpty c4Chunk) "U" "main"))
     rfl (by decide)⟩

/-- C4 counterexample trace: after the set for ("U","main") completes with a
matching checksum, a further chunk with a larger total and a different
checksum commits successfully (count below the new total), leaving a
completed row whose stored checksum no longer matches its data. -/
def c4Extra : ChunkPayload := { c4Chunk with seq := 2, total := 3, checksum := "ff" }

def c4db1 : DB := okDB (saveChunk dbEmpty c4Chunk)

def c4db2 : DB := okDB (saveChunk c4db1 c4Extra)

set_option maxRecDepth 40000 in
/-- C4 counterexample: a reachable committed state holds a completed chunk
set (still visible through `getChunkSet`) with a non-empty checksum that
does not match the SHA-256 digest of its stored data, refuting the claim's
"every completed set has SHA-256(data) equal to its checksum". -/
theorem C4_stale_checksum_counterexample :
    saveChunk c4db1 c4Extra = .ok (c4db2, none) ∧
    (alookup c4db2.chunkSets ⟨"U", "main"⟩).map
        (fun r => (r.completed, r.checksum, eqFold r.checksum (sha256Hex (r.data.getD []))))
      = some (true, "ff", false) ∧
    (getChunkSet c4db2 "U" "main").isSome = true :=
  ⟨rfl, rfl, rfl⟩

/-- C5: when the fallback chunk set of an upload completes while no
completed main set exists, the completion resolver writes no asset row and
leaves the assets table unchanged; when the main set of the same upload
later completes, exactly one `UpsertFromChunks` call is made, and the asset
row it writes carries the main set's bytes as data and the stored fallback
set's mime and bytes as fallback_mime/fallback_data. -/
theorem C5_fallback_before_main :
    ∀ (db0 : DB) (cf : ChunkPayload) (db1 : DB) (fset : AssembledSet),
      saveChunk db0 cf = .ok (db1, some fset) →
      fset.kind = "fallback" →
      getChunkSet db1 fset.uploadID "main" = none →
      (processChunkPayload db0 cf = .ok (db1, []) ∧ db1.assets = db0.assets) ∧
      (∀ (cm : ChunkPayload) (db2 : DB) (mset : AssembledSet),
         saveChunk db1 cm = .ok (db2, some mset) →
         mset.kind = "main" →
         mset.uploadID = fset.uploadID →
         getChunkSet db2 mset.uploadID "fallback" = some fset ∧
         processChunkPayload db1 cm
           = .ok (upsertFromChunks db2 mset (some fset), [⟨mset, some fset⟩]) ∧
         (assetFromChunks mset (some fset)).data = mset.data ∧
         (assetFromChunks mset (some fset)).fallbackMime = some fset.mime ∧
         (assetFromChunks mset (some fset)).fallbackData = some fset.data ∧
         alookup (upsertFromChunks db2 mset (some fset)).assets ⟨mset.author, mset.name⟩
           = some (assetFromChunks mset (some fset))) := by
  intro db0 cf db1 fset hsave1 hfk hnomain
  obtain ⟨hget1, hfid, hfkind⟩ := assemble_getChunkSet (saveChunk_ok_some hsave1)
  constructor
  · constructor
    · simp only [processChunkPayload, hsave1, handleCompletedSet]
      rw [hfid] at hnomain
      rw [if_neg (by rw [hfk]; decide), if_pos hfk, hfid, hnomain]
    · exact saveChunk_assets hsave1
  · intro cm db2 mset hsave2 hmk hmid
    obtain ⟨hget2, hmid2, hmkind⟩ := assemble_getChunkSet (saveChunk_ok_some hsave2)
    have hcmkind : cm.kind = "main" := by rw [← hmkind, hmk]
    have hcmid : cm.id = fset.uploadID := by rw [← hmid2, hmid]
    have hcfid : fset.uploadID = cf.id := hfid
    have hcfkind : cf.kind = "fallback" := by rw [← hfkind, hfk]
    have hfb2 : getChunkSet db2 fset.uploadID "fallback" = some fset := by
      have hother : alookup db2.chunkSets ⟨fset.uploadID, "fallback"⟩
          = alookup db1.chunkSets ⟨fset.uploadID, "fallback"⟩ := by
        apply saveChunk_sets_other hsave2
        intro hkeq
        have : "fallback" = cm.kind := congrArg SetKey.kind hkeq
        rw [hcmkind] at this
        exact absurd this (by decide)
      have hfb1 : getChunkSet db1 fset.uploadID "fallback" = some fset := by
        rw [← hcfid] at hget1
        rw [hcfkind] at hget1
        exact hget1
      rw [getChunkSet_congr hother]
      exact hfb1
    refine ⟨by rw [hmid]; exact hfb2, ?_, rfl, rfl, rfl, ?_⟩
    · simp only [processChunkPayload, hsave2, handleCompletedSet]
      rw [if_pos hmk, hmid, hfb2]
    · unfold upsertFromChunks
      exact alookup_aset_self _ _ _

/-- C5 witness inputs: a one-chunk fallback set that completes first, then a
one-chunk main set for the same upload. -/
def c5Fb : ChunkPayload :=
  { id := "V", author := "a", name := "emo", version := 2, mime := "image/png", width := 1,
    height := 1, animated := false, loop := none, checksum := "", kind := "fallback", seq := 1,
    total := 1, data := [7] }

def c5Main : ChunkPayload := { c5Fb with kind := "main", mime := "image/gif", data := [9] }

def c5db1 : DB := okDB (saveChunk dbEmpty c5Fb)

def c5fset : AssembledSet := (okSet (saveChunk dbEmpty c5Fb)).getD default

def c5db2 : DB := okDB (saveChunk c5db1 c5Main)

def c5mset : AssembledSet := (okSet (saveChunk c5db1 c5Main)).getD default

theorem C5_fallback_before_main_witness :
    processChunkPayload c5db1 c5Main
      = .ok (upsertFromChunks c5db2 c5mset (some c5fset), [⟨c5mset, some c5fset⟩]) :=
  (((C5_fallback_before_main dbEmpty c5Fb c5db1 c5fset rfl rfl rfl).2)
    c5Main c5db2 c5mset rfl rfl rfl).2.1
